import Mathlib

/-!
# Number-format resolution of the Excel MCP server

A shallow embedding of `parseNumberFormat` and `isValidExcelFormat`
(`src/main/main.go`, lines 663-791) together with the two library functions
they call, `strings.ToLower` and `strings.Split`, and of the border step of
the `format_range` handler (lines 557-570).

A Go string is taken to be well-formed UTF-8 text, so that ranging over it
yields exactly its code points: it is a Lean `String`, read through `.data`.
A Go `map` literal has pairwise distinct keys; it is an association list read
with `List.lookup`.
-/

namespace ExcelMcp

/-! ## Library functions -/

namespace unicode

/-- Lower case of one rune, as `unicode.ToLower` gives it. An ASCII capital is
moved by `'a' - 'A'`. Above U+007F the Unicode case table decides; its only
entries whose lower case is an ASCII rune are U+0130 (lower case `i`) and
U+212A (lower case `k`), and both are reproduced. Every other rune above
U+007F has a lower case above U+007F as well; such a rune is left as it is,
since only equality with the all-ASCII keys of the format tables is ever
asked of the result. -/
def ToLower (r : Char) : Char :=
  if 'A' ≤ r ∧ r ≤ 'Z' then Char.ofNat (r.toNat + 32)
  else if r = Char.ofNat 0x130 then 'i'
  else if r = Char.ofNat 0x212A then 'k'
  else r

/-- Upper case of one rune, as `unicode.ToUpper` gives it on ASCII: a small
ASCII letter is moved by `'a' - 'A'`. The two runes above U+007F whose upper
case is ASCII, U+0131 and U+017F, are reproduced; other runes are left as
they are (the function is only applied to the all-ASCII table names). -/
def ToUpper (r : Char) : Char :=
  if 'a' ≤ r ∧ r ≤ 'z' then Char.ofNat (r.toNat - 32)
  else if r = Char.ofNat 0x131 then 'I'
  else if r = Char.ofNat 0x17F then 'S'
  else r

end unicode

namespace strings

/-- The function `strings.ToLower`: every rune mapped by `unicode.ToLower`. -/
def ToLower (s : String) : String := ⟨s.data.map unicode.ToLower⟩

/-- The function `strings.ToUpper`: every rune mapped by `unicode.ToUpper`. -/
def ToUpper (s : String) : String := ⟨s.data.map unicode.ToUpper⟩

/-- Pieces of a rune list between the occurrences of a one-rune separator. -/
def splitRunes (sep : Char) : List Char → List (List Char)
  | [] => [[]]
  | c :: cs =>
    if c = sep then [] :: splitRunes sep cs
    else
      match splitRunes sep cs with
      | [] => [[c]]
      | piece :: rest => (c :: piece) :: rest

/-- The function `strings.Split` for a separator of one rune, which is how
`isValidExcelFormat` calls it: the substrings between the separators, one more
than there are separators (so the empty string gives one empty piece). -/
def Split (s : String) (sep : Char) : List String :=
  (splitRunes sep s.data).map String.mk

end strings

/-! ## The resolver -/

/-- The error of `parseNumberFormat`:
`fmt.Errorf("invalid Excel number format: %q", formatStr)`. -/
inductive FormatError where
  | invalidFormat (specifier : String)
  deriving DecidableEq, Repr

deriving instance DecidableEq for Except

/-- The map literal `builtInFormats` of `parseNumberFormat`. -/
def builtInFormats : List (String × Int) :=
  [ ("general", 0),
    ("0", 1),
    ("0.00", 2),
    ("#,##0", 3),
    ("#,##0.00", 4),
    ("0%", 9),
    ("0.00%", 10),
    ("0.00e+00", 11),
    ("# ?/?", 12),
    ("# ??/??", 13),
    ("mm-dd-yy", 14),
    ("d-mmm-yy", 15),
    ("d-mmm", 16),
    ("mmm-yy", 17),
    ("h:mm am/pm", 18),
    ("h:mm:ss am/pm", 19),
    ("h:mm", 20),
    ("h:mm:ss", 21),
    ("m/d/yy h:mm", 22),
    ("$#,##0_);($#,##0)", 7),
    ("$#,##0_);[Red]($#,##0)", 8),
    ("$#,##0.00_);($#,##0.00)", 39),
    ("$#,##0.00_);[Red]($#,##0.00)", 40) ]

/-- The map literal `commonCustomFormats` of `parseNumberFormat`. -/
def commonCustomFormats : List (String × Int) :=
  [ ("#,##0_);(#,##0)", 164),
    ("#,##0.00_);(#,##0.00)", 165),
    ("[Blue]#,##0_);[Red](#,##0)", 166),
    ("[Blue]#,##0.00_);[Red](#,##0.00)", 167),
    ("yyyy-mm-dd", 168),
    ("dd/mm/yyyy", 169),
    ("mm/dd/yyyy", 170),
    ("dd-mmm-yyyy", 171),
    ("dd-mmm-yy", 172),
    ("mmm-yy", 173),
    ("[h]:mm", 174),
    ("[h]:mm:ss", 175),
    ("hh:mm:ss", 176),
    ("hh:mm:ss.000", 177),
    ("\"$\"#,##0_);\"$\"(#,##0)", 178),
    ("\"$\"#,##0.00_);\"$\"(#,##0.00)", 179),
    ("_(\"$\"* #,##0_);_(\"$\"* (#,##0);_(\"$\"* \"-\"_);_(@_)", 180) ]

/-- The local `nextCustomCode` of `parseNumberFormat`. -/
def nextCustomCode : Int := 181

/-- The condition of the `if` in the inner loop of `isValidExcelFormat`: the
rune is none of the accepted ones, so the validator returns false. -/
def rejectedRune (ch : Char) : Bool :=
  !(decide ('0' ≤ ch) && decide (ch ≤ '9')) &&
  !(decide ('a' ≤ ch) && decide (ch ≤ 'z')) &&
  !(decide ('A' ≤ ch) && decide (ch ≤ 'Z')) &&
  ch != '.' && ch != ',' && ch != '#' &&
  ch != '?' && ch != '/' && ch != '\\' &&
  ch != '*' && ch != '_' && ch != '(' &&
  ch != ')' && ch != '[' && ch != ']' &&
  ch != '"' && ch != '$' && ch != '-' &&
  ch != '+' && ch != ' ' && ch != ':' &&
  ch != 'y' && ch != 'm' && ch != 'd' &&
  ch != 'h' && ch != 's' && ch != 'e'

/-- The function `isValidExcelFormat`: false on the empty string and on more
than four sections; otherwise the two loops return false at the first rejected
rune of a section and true when there is none. -/
def isValidExcelFormat (format : String) : Bool :=
  if format.length = 0 then false
  else
    let sections := strings.Split format ';'
    if sections.length > 4 then false
    else sections.all (fun sec => sec.data.all (fun ch => !rejectedRune ch))

/-- The function `parseNumberFormat`: the built-in table under the lower-cased
specifier, then the custom table under the specifier itself, then the
validator. -/
def parseNumberFormat (formatStr : String) : Except FormatError Int :=
  match builtInFormats.lookup (strings.ToLower formatStr) with
  | some code => .ok code
  | none =>
    match commonCustomFormats.lookup formatStr with
    | some code => .ok code
    | none =>
      if !isValidExcelFormat formatStr then .error (.invalidFormat formatStr)
      else .ok nextCustomCode

/-! ## Calls in a running process -/

/-- The map literal of the package-level variable `borderStyles`. -/
def borderStyles : List (String × Int) :=
  [ ("none", -1),
    ("thin", 1),
    ("medium", 2),
    ("dashed", 3),
    ("dotted", 4),
    ("thick", 5),
    ("double", 6),
    ("hair", 7),
    ("mediumDashed", 8),
    ("dashDot", 9),
    ("mediumDashDot", 10),
    ("dashDotDot", 11),
    ("mediumDashDotDot", 12),
    ("slantDashDot", 13) ]

/-- The map literal of the package-level variable `patterns`. -/
def patterns : List (String × Int) :=
  [ ("none", 0),
    ("solid", 1),
    ("darkGray", 2),
    ("mediumGray", 3),
    ("lightGray", 4),
    ("gray125", 5),
    ("gray0625", 6) ]

/-- The package-level variables of `main.go`, the only state that outlives a
call: the two maps `borderStyles` and `patterns`. -/
structure Globals where
  borderStyles : List (String × Int)
  patterns : List (String × Int)
  deriving DecidableEq, Repr

/-- The cells of the locals of `parseNumberFormat`: its parameter
`formatStr`, the two local maps and `nextCustomCode`. -/
structure ParseFrame where
  formatStr : String
  builtInFormats : List (String × Int)
  commonCustomFormats : List (String × Int)
  nextCustomCode : Int
  deriving DecidableEq, Repr

/-- The cells of the locals of `isValidExcelFormat`: its parameter `format`
and the slice `sections`. -/
structure ValidFrame where
  format : String
  sections : List String
  deriving DecidableEq, Repr

/-- The memory of the running process as far as the resolver can reach it:
the package-level variables and the cells of the locals of its two functions.
What a cell of a local holds when a call begins is whatever was left there
before; nothing is assumed about it. -/
structure Store where
  globals : Globals
  parseFrame : ParseFrame
  validFrame : ValidFrame
  deriving DecidableEq, Repr

/-- A call of `isValidExcelFormat` (`main.go`, lines 759-791), statement by
statement on the store: the parameter is bound; the length is tested; line 765
assigns `sections`; its length is tested; the two loops range over the
assigned `sections`. Every read is of a cell of this function. -/
def isValidExcelFormatCall (σ : Store) (format : String) : Bool × Store :=
  let σ₁ : Store := { σ with validFrame := { σ.validFrame with format := format } }
  if σ₁.validFrame.format.length = 0 then (false, σ₁)
  else
    let σ₂ : Store :=
      { σ₁ with validFrame :=
          { σ₁.validFrame with sections := strings.Split σ₁.validFrame.format ';' } }
    if σ₂.validFrame.sections.length > 4 then (false, σ₂)
    else
      (σ₂.validFrame.sections.all (fun sec => sec.data.all (fun ch => !rejectedRune ch)), σ₂)

/-- A call of `parseNumberFormat` (`main.go`, lines 665-756), statement by
statement on the store: the parameter is bound; line 667 assigns the local
`builtInFormats`; line 699 reads it under the lower-cased `formatStr` and
returns on a hit; line 705 assigns the local `commonCustomFormats`; line 735
reads it under `formatStr` and returns on a hit; line 746 assigns 181 to the
local `nextCustomCode`; line 749 calls `isValidExcelFormat` and returns the
error on false; line 755 returns what the cell `nextCustomCode` then holds. -/
def parseNumberFormatCall (σ : Store) (formatStr : String) :
    Except FormatError Int × Store :=
  let σ₁ : Store := { σ with parseFrame := { σ.parseFrame with formatStr := formatStr } }
  let σ₂ : Store :=
    { σ₁ with parseFrame := { σ₁.parseFrame with builtInFormats := ExcelMcp.builtInFormats } }
  match σ₂.parseFrame.builtInFormats.lookup (strings.ToLower σ₂.parseFrame.formatStr) with
  | some code => (.ok code, σ₂)
  | none =>
    let σ₃ : Store :=
      { σ₂ with parseFrame :=
          { σ₂.parseFrame with commonCustomFormats := ExcelMcp.commonCustomFormats } }
    match σ₃.parseFrame.commonCustomFormats.lookup σ₃.parseFrame.formatStr with
    | some code => (.ok code, σ₃)
    | none =>
      let σ₄ : Store := { σ₃ with parseFrame := { σ₃.parseFrame with nextCustomCode := 181 } }
      let r := isValidExcelFormatCall σ₄ σ₄.parseFrame.formatStr
      if !r.1 then (.error (.invalidFormat r.2.parseFrame.formatStr), r.2)
      else (.ok r.2.parseFrame.nextCustomCode, r.2)

/-- Calls of `parseNumberFormat` one after the other, each on the store the
one before left: the store after the last one. -/
def runCalls (σ : Store) : List String → Store
  | [] => σ
  | formatStr :: rest => runCalls (parseNumberFormatCall σ formatStr).2 rest

/-! ## The border step of the `format_range` handler -/

/-- A value of the request's `Arguments` map (`map[string]interface{}` filled
from JSON): a string, a boolean, a number or the JSON null. The border step
only asks whether a value is a string, so a number is kept as an integer. -/
inductive Value where
  | str (s : String)
  | bool (b : Bool)
  | num (n : Int)
  | null
  deriving DecidableEq, Repr

/-- The struct `excelize.Border` of the spreadsheet library, with the three
fields the handler assigns: `Type`, `Color` and `Style`. -/
structure Border where
  Type_ : String
  Color : String
  Style : Int
  deriving DecidableEq, Repr

/-- How a piece of the handler ends: it runs to its end, it returns a tool
error result, or the Go runtime panics. -/
inductive Outcome (α : Type) where
  | done (a : α)
  | toolError (msg : String)
  | panicked (msg : String)
  deriving DecidableEq, Repr

/-- The type assertion `x.(string)` on `Arguments[key]`: the string when the
key is present with a string value, nothing when the key is absent (a nil
interface) or the value is of another type. The two-value form `s, ok := ...`
reads nothing as `ok = false`; the one-value form panics on it. -/
def assertString (args : List (String × Value)) (key : String) : Option String :=
  match args.lookup key with
  | some (.str s) => some s
  | _ => none

/-- The slice `style.Border` as the handler makes it:
`make([]excelize.Border, 4)`, four zero values. -/
def initialBorder : List Border := List.replicate 4 ⟨"", "", 0⟩

/-- The loop `for i := range style.Border` of the border step, from index `i`
on. Each round sets `Type` and `Style`, then evaluates the one-value assertion
`Arguments["border_color"].(string)`, which panics unless the argument is a
string, and sets `Color` when that string is not empty. -/
def borderLoop (args : List (String × Value)) (borderStyle : Int) (i : Nat) :
    List Border → Outcome (List Border)
  | [] => .done []
  | b :: rest =>
    match ["top", "right", "bottom", "left"][i]? with
    | none => .panicked "index out of range"
    | some side =>
      let b₁ : Border := { b with Type_ := side, Style := borderStyle }
      match assertString args "border_color" with
      | none => .panicked "interface conversion: not string"
      | some borderColor =>
        let b₂ : Border := if borderColor ≠ "" then { b₁ with Color := borderColor } else b₁
        match borderLoop args borderStyle (i + 1) rest with
        | .done rest₁ => .done (b₂ :: rest₁)
        | .toolError msg => .toolError msg
        | .panicked msg => .panicked msg

/-- The border step of the `format_range` handler (`main.go`, lines 557-570),
on the slice `style.Border`: nothing to do without a non-empty string
`border_type`, a tool error for a `border_type` that is no key of
`borderStyles`, the loop otherwise. -/
def borderStep (args : List (String × Value)) (border : List Border) :
    Outcome (List Border) :=
  match assertString args "border_type" with
  | none => .done border
  | some borderType =>
    if borderType = "" then .done border
    else
      match borderStyles.lookup borderType with
      | none => .toolError ("invalid border type: " ++ borderType)
      | some borderStyle => borderLoop args borderStyle 0 border

/-! ## The validator as the specification words it -/

/-- The explicit allow-set of the specification: the ASCII digits, the ASCII
letters `a`-`z` and `A`-`Z`, and the punctuation
`. , # ? / \ * _ ( ) [ ] " $ - + space :`. -/
def allowSet : List Char :=
  "0123456789".data ++
  "abcdefghijklmnopqrstuvwxyz".data ++
  "ABCDEFGHIJKLMNOPQRSTUVWXYZ".data ++
  ['.', ',', '#', '?', '/', '\\', '*', '_', '(', ')', '[', ']', '"', '$', '-', '+', ' ', ':']

/-- The validator as a set-membership check, in the words of the
specification: the string is not empty, splitting it on `;` gives at most four
sections, and every rune of every section is a member of `allowSet`. -/
def setMembershipValidator (s : String) : Bool :=
  decide (s ≠ "") &&
  decide ((strings.Split s ';').length ≤ 4) &&
  (strings.Split s ';').all (fun sec => sec.data.all (fun ch => allowSet.contains ch))

/-! ## Association lists -/

theorem lookup_mem {l : List (String × Int)} {k : String} {v : Int}
    (h : l.lookup k = some v) : (k, v) ∈ l := by
  induction l with
  | nil => simp at h
  | cons e l ih =>
    obtain ⟨k', v'⟩ := e
    by_cases hk : k = k'
    · subst hk
      simp [List.lookup] at h
      simp [h]
    · have hb : (k == k') = false := by simpa using hk
      simp only [List.lookup, hb] at h
      exact List.mem_cons_of_mem _ (ih h)

theorem lookup_of_mem_keys {l : List (String × Int)} {k : String}
    (h : k ∈ l.map Prod.fst) : ∃ v, l.lookup k = some v ∧ (k, v) ∈ l := by
  induction l with
  | nil => simp at h
  | cons e l ih =>
    obtain ⟨k', v'⟩ := e
    by_cases hk : k = k'
    · subst hk
      exact ⟨v', by simp [List.lookup], by simp⟩
    · have hb : (k == k') = false := by simpa using hk
      have h' : k ∈ l.map Prod.fst := by
        simp only [List.map_cons, List.mem_cons] at h
        rcases h with h | h
        · exact absurd h hk
        · exact h
      obtain ⟨v, hv, hm⟩ := ih h'
      exact ⟨v, by simp only [List.lookup, hb]; exact hv, List.mem_cons_of_mem _ hm⟩

theorem lookup_none_of_not_mem_keys {l : List (String × Int)} {k : String}
    (h : k ∉ l.map Prod.fst) : l.lookup k = none := by
  cases hl : l.lookup k with
  | none => rfl
  | some v =>
    exact absurd (List.mem_map_of_mem Prod.fst (lookup_mem hl)) h

/-! ## Splitting into sections -/

theorem splitRunes_ne_nil (sep : Char) (l : List Char) : strings.splitRunes sep l ≠ [] := by
  cases l with
  | nil => simp [strings.splitRunes]
  | cons c cs =>
    simp only [strings.splitRunes]
    split
    · simp
    · split <;> simp

theorem splitRunes_length (sep : Char) (l : List Char) :
    (strings.splitRunes sep l).length = l.count sep + 1 := by
  induction l with
  | nil => simp [strings.splitRunes]
  | cons c cs ih =>
    simp only [strings.splitRunes]
    by_cases hc : c = sep
    · subst hc
      simp [ih]
    · have hne : (c == sep) = false := by simpa using hc
      rw [if_neg hc, List.count_cons, hne]
      cases hs : strings.splitRunes sep cs with
      | nil => exact absurd hs (splitRunes_ne_nil sep cs)
      | cons piece rest =>
        rw [hs] at ih
        simpa using ih

theorem mem_splitRunes (sep c : Char) (l : List Char) :
    (∃ p ∈ strings.splitRunes sep l, c ∈ p) ↔ c ∈ l ∧ c ≠ sep := by
  induction l with
  | nil => simp [strings.splitRunes]
  | cons d ds ih =>
    simp only [strings.splitRunes]
    by_cases hd : d = sep
    · subst hd
      rw [if_pos rfl]
      constructor
      · rintro ⟨p, hp, hcp⟩
        simp only [List.mem_cons] at hp
        rcases hp with hp | hp
        · subst hp; simp at hcp
        · have := ih.mp ⟨p, hp, hcp⟩
          exact ⟨List.mem_cons_of_mem _ this.1, this.2⟩
      · rintro ⟨hc, hne⟩
        simp only [List.mem_cons] at hc
        rcases hc with hc | hc
        · exact absurd hc hne
        · obtain ⟨p, hp, hcp⟩ := ih.mpr ⟨hc, hne⟩
          exact ⟨p, List.mem_cons_of_mem _ hp, hcp⟩
    · rw [if_neg hd]
      cases hs : strings.splitRunes sep ds with
      | nil => exact absurd hs (splitRunes_ne_nil sep ds)
      | cons piece rest =>
        rw [hs] at ih
        simp only
        constructor
        · rintro ⟨p, hp, hcp⟩
          simp only [List.mem_cons] at hp
          rcases hp with hp | hp
          · subst hp
            simp only [List.mem_cons] at hcp
            rcases hcp with hcp | hcp
            · subst hcp
              exact ⟨by simp, hd⟩
            · have := ih.mp ⟨piece, by simp, hcp⟩
              exact ⟨List.mem_cons_of_mem _ this.1, this.2⟩
          · have := ih.mp ⟨p, List.mem_cons_of_mem _ hp, hcp⟩
            exact ⟨List.mem_cons_of_mem _ this.1, this.2⟩
        · rintro ⟨hc, hne⟩
          simp only [List.mem_cons] at hc
          rcases hc with hc | hc
          · subst hc
            exact ⟨c :: piece, by simp, by simp⟩
          · obtain ⟨p, hp, hcp⟩ := ih.mpr ⟨hc, hne⟩
            simp only [List.mem_cons] at hp
            rcases hp with hp | hp
            · subst hp
              exact ⟨d :: p, by simp, List.mem_cons_of_mem _ hcp⟩
            · exact ⟨p, by simp [hp], hcp⟩

theorem Split_length (s : String) (sep : Char) :
    (strings.Split s sep).length = s.data.count sep + 1 := by
  simp [strings.Split, splitRunes_length]

/-- What `isValidExcelFormat` decides: the string is not empty, it has at most
four sections, and no rune other than the separator is rejected. -/
theorem isValidExcelFormat_iff (s : String) :
    isValidExcelFormat s = true ↔
      s ≠ "" ∧ (strings.Split s ';').length ≤ 4 ∧
        ∀ c ∈ s.data, c ≠ ';' → rejectedRune c = false := by
  have hlen : s.length = 0 ↔ s = "" := by
    constructor
    · intro h
      have : s.data = [] := List.length_eq_zero.mp h
      exact String.ext this
    · rintro rfl
      rfl
  unfold isValidExcelFormat
  by_cases h0 : s.length = 0
  · simp [h0, hlen.mp h0]
  · have hne : s ≠ "" := fun h => h0 (hlen.mpr h)
    simp only [h0, if_false]
    by_cases h4 : (strings.Split s ';').length > 4
    · simp [h4, hne]
    · simp only [h4, if_false]
      have h4' : (strings.Split s ';').length ≤ 4 := by omega
      simp only [hne, h4', ne_eq, not_false_eq_true, true_and]
      simp only [strings.Split, List.all_eq_true, List.mem_map, Bool.not_eq_true',
        forall_exists_index, and_imp, forall_apply_eq_imp_iff₂]
      constructor
      · intro h c hc hsep
        obtain ⟨p, hp, hcp⟩ := (mem_splitRunes ';' c s.data).mpr ⟨hc, hsep⟩
        exact h p hp c hcp
      · intro h p hp c hcp
        have := (mem_splitRunes ';' c s.data).mp ⟨p, hp, hcp⟩
        exact h c this.1 this.2

/-! ## Runes and case -/

theorem upper_toNat {c : Char} (h : 'A' ≤ c ∧ c ≤ 'Z') : 65 ≤ c.toNat ∧ c.toNat ≤ 90 :=
  ⟨h.1, h.2⟩

theorem lower_of_upper {c : Char} (h : 'A' ≤ c ∧ c ≤ 'Z') :
    'a' ≤ Char.ofNat (c.toNat + 32) ∧ Char.ofNat (c.toNat + 32) ≤ 'z' := by
  obtain ⟨h1, h2⟩ := upper_toNat h
  generalize c.toNat = n at h1 h2
  interval_cases n <;> decide

/-- A rune whose lower case is not a small ASCII letter is its own lower case. -/
theorem ToLower_rune_eq {c d : Char} (h : unicode.ToLower c = d)
    (hd : ¬ ('a' ≤ d ∧ d ≤ 'z')) : c = d := by
  unfold unicode.ToLower at h
  split_ifs at h with h1 h2 h3
  · exact absurd (h ▸ lower_of_upper h1) hd
  · exact absurd (h ▸ (by decide : 'a' ≤ 'i' ∧ 'i' ≤ 'z')) hd
  · exact absurd (h ▸ (by decide : 'a' ≤ 'k' ∧ 'k' ≤ 'z')) hd
  · exact h

/-- A rune whose lower case the validator accepts (or is the separator) is
itself accepted (or the separator), unless that lower case is `i` or `k`. -/
theorem rejectedRune_of_ToLower {c : Char}
    (h : unicode.ToLower c = ';' ∨ rejectedRune (unicode.ToLower c) = false)
    (hi : unicode.ToLower c ≠ 'i') (hk : unicode.ToLower c ≠ 'k') :
    c = ';' ∨ rejectedRune c = false := by
  unfold unicode.ToLower at h hi hk
  split_ifs at h hi hk with h1 h2 h3
  · right
    simp [rejectedRune, h1.1, h1.2]
  · exact absurd rfl hi
  · exact absurd rfl hk
  · exact h

theorem ToLower_eq_of_no_small {s k : String} (h : strings.ToLower s = k)
    (hk : ∀ d ∈ k.data, ¬ ('a' ≤ d ∧ d ≤ 'z')) : s = k := by
  have hdata : s.data.map unicode.ToLower = k.data := by
    rw [← h]
    rfl
  apply String.ext
  have hmap : s.data.map unicode.ToLower = s.data.map id := by
    apply List.map_congr_left
    intro c hc
    have hmem : unicode.ToLower c ∈ k.data := by
      rw [← hdata]
      exact List.mem_map_of_mem _ hc
    exact (ToLower_rune_eq rfl (hk _ hmem)).symm
  rw [← hdata, hmap, List.map_id]

theorem ToLower_semicolons (s : String) :
    s.data.count ';' ≤ (strings.ToLower s).data.count ';' := by
  have h := List.count_le_count_map (l := s.data) unicode.ToLower ';'
  have h' : unicode.ToLower ';' = ';' := by decide
  rw [h'] at h
  exact h

/-! ## The tables -/

theorem builtIn_codes_bound : ∀ e ∈ builtInFormats, 0 ≤ e.2 ∧ e.2 ≤ 163 := by decide

theorem custom_codes_bound : ∀ e ∈ commonCustomFormats, 164 ≤ e.2 ∧ e.2 ≤ 180 := by decide

theorem custom_codes_inj :
    ∀ e ∈ commonCustomFormats, ∀ f ∈ commonCustomFormats, e.2 = f.2 → e.1 = f.1 := by
  decide

theorem builtIn_semicolons : ∀ e ∈ builtInFormats, e.1.data.count ';' < 4 := by decide

theorem custom_semicolons : ∀ e ∈ commonCustomFormats, e.1.data.count ';' < 4 := by decide

theorem builtIn_runes :
    ∀ e ∈ builtInFormats, e.1 = "0%" ∨ e.1 = "0.00%" ∨
      ∀ ch ∈ e.1.data, (ch = ';' ∨ rejectedRune ch = false) ∧ ch ≠ 'i' ∧ ch ≠ 'k' := by
  decide

theorem custom_runes :
    ∀ e ∈ commonCustomFormats,
      e.1 = "_(\"$\"* #,##0_);_(\"$\"* (#,##0);_(\"$\"* \"-\"_);_(@_)" ∨
      ∀ ch ∈ e.1.data, ch = ';' ∨ rejectedRune ch = false := by
  decide

theorem builtIn_lookup_lower :
    ∀ e ∈ builtInFormats, e.1 = strings.ToLower e.1 → builtInFormats.lookup e.1 = some e.2 := by
  decide

/-- All names of the built-in table are lower-case, the two `[Red]` entries
(codes 8 and 40) apart. -/
theorem builtIn_lower_names :
    ∀ e ∈ builtInFormats, e.1 = strings.ToLower e.1 ∨ e.2 = 8 ∨ e.2 = 40 := by
  decide

/-! ## The four ways out of `parseNumberFormat` -/

theorem parseNumberFormat_cases (s : String) :
    (∃ v, builtInFormats.lookup (strings.ToLower s) = some v ∧ parseNumberFormat s = .ok v) ∨
    (builtInFormats.lookup (strings.ToLower s) = none ∧
      ∃ v, commonCustomFormats.lookup s = some v ∧ parseNumberFormat s = .ok v) ∨
    (builtInFormats.lookup (strings.ToLower s) = none ∧ commonCustomFormats.lookup s = none ∧
      isValidExcelFormat s = true ∧ parseNumberFormat s = .ok 181) ∨
    (builtInFormats.lookup (strings.ToLower s) = none ∧ commonCustomFormats.lookup s = none ∧
      isValidExcelFormat s = false ∧ parseNumberFormat s = .error (.invalidFormat s)) := by
  unfold parseNumberFormat
  cases hb : builtInFormats.lookup (strings.ToLower s) with
  | some v => exact Or.inl ⟨v, rfl, rfl⟩
  | none =>
    cases hc : commonCustomFormats.lookup s with
    | some v => exact Or.inr (Or.inl ⟨rfl, v, rfl, rfl⟩)
    | none =>
      cases hv : isValidExcelFormat s with
      | true => exact Or.inr (Or.inr (Or.inl ⟨rfl, rfl, rfl, by simp [nextCustomCode]⟩))
      | false => exact Or.inr (Or.inr (Or.inr ⟨rfl, rfl, rfl, by simp⟩))

/-- A lower-case name of the built-in table is found under every specifier
that has the name as its lower case. -/
theorem parseNumberFormat_builtIn_hit (s name : String) (code : Int)
    (h : (name, code) ∈ builtInFormats) (hlow : name = strings.ToLower name)
    (hs : strings.ToLower s = name) : parseNumberFormat s = .ok code := by
  have hl := builtIn_lookup_lower (name, code) h hlow
  unfold parseNumberFormat
  rw [hs]
  simp only at hl
  rw [hl]

/-! ## The claims -/

/-- C1: every entry of the built-in table is meant to resolve to its code under
its own name. The two entries spelt with a capital (`[Red]`, codes 8 and 40)
are declared in the table, yet `parseNumberFormat` looks the table up under
the lower-cased specifier only, so under their own names they fall through to
the validator and come back as 181. -/
theorem parseNumberFormat_red_entries :
    builtInFormats.lookup "$#,##0_);[Red]($#,##0)" = some 8 ∧
    parseNumberFormat "$#,##0_);[Red]($#,##0)" = .ok 181 ∧
    builtInFormats.lookup "$#,##0.00_);[Red]($#,##0.00)" = some 40 ∧
    parseNumberFormat "$#,##0.00_);[Red]($#,##0.00)" = .ok 181 := by
  decide

/-- C2, as stated, fails: `"0%"`, `"0.00%"` and the accounting pattern each
hold a rune the validator rejects (`%`, `%`, `@`) and are resolved all the
same, by the tables, to 9, 10 and 180. -/
theorem parseNumberFormat_accepts_rejected_rune :
    ((∃ c ∈ "0%".data, c ≠ ';' ∧ rejectedRune c = true) ∧
      parseNumberFormat "0%" = .ok 9) ∧
    ((∃ c ∈ "0.00%".data, c ≠ ';' ∧ rejectedRune c = true) ∧
      parseNumberFormat "0.00%" = .ok 10) ∧
    ((∃ c ∈ "_(\"$\"* #,##0_);_(\"$\"* (#,##0);_(\"$\"* \"-\"_);_(@_)".data,
        c ≠ ';' ∧ rejectedRune c = true) ∧
      parseNumberFormat "_(\"$\"* #,##0_);_(\"$\"* (#,##0);_(\"$\"* \"-\"_);_(@_)"
        = .ok 180) := by
  decide

/-- C2, amended: a specifier holding a rune that the validator rejects (a rune
that is neither accepted nor the separator `;`) fails with the invalid-format
error for that specifier, unless it is one of the three table entries that
hold such a rune themselves: `"0%"`, `"0.00%"` and the accounting pattern. -/
theorem parseNumberFormat_rejected_rune (s : String)
    (h : ∃ c ∈ s.data, c ≠ ';' ∧ rejectedRune c = true)
    (h1 : s ≠ "0%") (h2 : s ≠ "0.00%")
    (h3 : s ≠ "_(\"$\"* #,##0_);_(\"$\"* (#,##0);_(\"$\"* \"-\"_);_(@_)") :
    parseNumberFormat s = .error (.invalidFormat s) := by
  obtain ⟨c, hc, hsep, hrej⟩ := h
  have hbad : ¬ (c = ';' ∨ rejectedRune c = false) := by
    rintro (h | h)
    · exact hsep h
    · rw [hrej] at h
      exact Bool.noConfusion h
  have hbuilt : builtInFormats.lookup (strings.ToLower s) = none := by
    cases hl : builtInFormats.lookup (strings.ToLower s) with
    | none => rfl
    | some v =>
      exfalso
      rcases builtIn_runes _ (lookup_mem hl) with hk | hk | hk
      · exact h1 (ToLower_eq_of_no_small hk (by decide))
      · exact h2 (ToLower_eq_of_no_small hk (by decide))
      · have hmem : unicode.ToLower c ∈ (strings.ToLower s).data :=
          List.mem_map_of_mem _ hc
        obtain ⟨ha, hi, hk'⟩ := hk _ hmem
        exact hbad (rejectedRune_of_ToLower ha hi hk')
  have hcust : commonCustomFormats.lookup s = none := by
    cases hl : commonCustomFormats.lookup s with
    | none => rfl
    | some v =>
      exfalso
      rcases custom_runes _ (lookup_mem hl) with hk | hk
      · exact h3 hk
      · exact hbad (hk c hc)
  have hval : isValidExcelFormat s = false := by
    cases hv : isValidExcelFormat s with
    | false => rfl
    | true =>
      exfalso
      have := ((isValidExcelFormat_iff s).mp hv).2.2 c hc hsep
      exact hbad (Or.inr this)
  unfold parseNumberFormat
  simp [hbuilt, hcust, hval]

/-- Witness of C2, amended, at the specifier `"0.00€"`. -/
theorem parseNumberFormat_rejected_rune_witness :
    parseNumberFormat "0.00€" = .error (.invalidFormat "0.00€") :=
  parseNumberFormat_rejected_rune "0.00€" ⟨'€', by decide, by decide, by decide⟩
    (by decide) (by decide) (by decide)

/-- C3, as stated, fails: the empty specifier has one section and no rune at
all, and `parseNumberFormat` answers it with the invalid-format error. -/
theorem parseNumberFormat_empty :
    (strings.Split "" ';').length ≤ 4 ∧
    (∀ c ∈ "".data, c ≠ ';' → rejectedRune c = false) ∧
    parseNumberFormat "" = .error (.invalidFormat "") := by
  decide

/-- C3, amended: every specifier that is not empty, has at most four sections
and holds no rune the validator rejects yields a code and no error; so an
error is returned only for an empty specifier, for more than four sections or
for a rejected rune. -/
theorem parseNumberFormat_ok_of_valid (s : String) (hne : s ≠ "")
    (hsec : (strings.Split s ';').length ≤ 4)
    (hrunes : ∀ c ∈ s.data, c ≠ ';' → rejectedRune c = false) :
    ∃ code, parseNumberFormat s = .ok code := by
  have hv : isValidExcelFormat s = true := (isValidExcelFormat_iff s).mpr ⟨hne, hsec, hrunes⟩
  rcases parseNumberFormat_cases s with ⟨v, _, h⟩ | ⟨_, v, _, h⟩ | ⟨_, _, _, h⟩ | ⟨_, _, hf, _⟩
  · exact ⟨v, h⟩
  · exact ⟨v, h⟩
  · exact ⟨181, h⟩
  · rw [hv] at hf
    exact Bool.noConfusion hf

/-- Witness of C3, amended, at the specifier `"0.0000;-0.0000"`. -/
theorem parseNumberFormat_ok_of_valid_witness :
    ∃ code, parseNumberFormat "0.0000;-0.0000" = .ok code :=
  parseNumberFormat_ok_of_valid "0.0000;-0.0000" (by decide) (by decide) (by decide)

/-- C4, as stated, fails: `"mmm-yy"` is declared with code 173 in the custom
table, but it is a name of the built-in table too, which is read first, and
`parseNumberFormat` gives the built-in code 17. -/
theorem parseNumberFormat_mmm_yy :
    ("mmm-yy", 173) ∈ commonCustomFormats ∧ parseNumberFormat "mmm-yy" = .ok 17 ∧
      parseNumberFormat "mmm-yy" ≠ .ok 173 := by
  decide

/-- C4, amended: every entry of the custom table other than `"mmm-yy"`
resolves, under its pattern, to its code, which lies between 164 and 180. -/
theorem parseNumberFormat_custom_entry (pattern : String) (code : Int)
    (h : (pattern, code) ∈ commonCustomFormats) (hne : pattern ≠ "mmm-yy") :
    parseNumberFormat pattern = .ok code ∧ 164 ≤ code ∧ code ≤ 180 := by
  have key : ∀ e ∈ commonCustomFormats, e.1 ≠ "mmm-yy" →
      parseNumberFormat e.1 = .ok e.2 ∧ 164 ≤ e.2 ∧ e.2 ≤ 180 := by decide
  exact key (pattern, code) h hne

/-- Witness of C4, amended, at the entries of `"yyyy-mm-dd"`. -/
theorem parseNumberFormat_custom_entry_witness :
    parseNumberFormat "yyyy-mm-dd" = .ok 168 ∧ (164 : Int) ≤ 168 ∧ (168 : Int) ≤ 180 :=
  parseNumberFormat_custom_entry "yyyy-mm-dd" 168 (by decide) (by decide)

/-- C5: a specifier found in neither table that passes `isValidExcelFormat`
gets the code 181, whatever it holds; two such specifiers get the same code. -/
theorem parseNumberFormat_generic (s t : String)
    (hs₁ : builtInFormats.lookup (strings.ToLower s) = none)
    (hs₂ : commonCustomFormats.lookup s = none) (hs₃ : isValidExcelFormat s = true)
    (ht₁ : builtInFormats.lookup (strings.ToLower t) = none)
    (ht₂ : commonCustomFormats.lookup t = none) (ht₃ : isValidExcelFormat t = true) :
    parseNumberFormat s = .ok 181 ∧ parseNumberFormat t = .ok 181 ∧
      parseNumberFormat s = parseNumberFormat t := by
  have hs : parseNumberFormat s = .ok 181 := by
    unfold parseNumberFormat
    simp [hs₁, hs₂, hs₃, nextCustomCode]
  have ht : parseNumberFormat t = .ok 181 := by
    unfold parseNumberFormat
    simp [ht₁, ht₂, ht₃, nextCustomCode]
  exact ⟨hs, ht, hs.trans ht.symm⟩

/-- Witness of C5 at the specifiers `"0.0000"` and `"0.00000"`. -/
theorem parseNumberFormat_generic_witness :
    parseNumberFormat "0.0000" = .ok 181 ∧ parseNumberFormat "0.00000" = .ok 181 ∧
      parseNumberFormat "0.0000" = parseNumberFormat "0.00000" :=
  parseNumberFormat_generic "0.0000" "0.00000" (by decide) (by decide) (by decide)
    (by decide) (by decide) (by decide)

/-- C6: a specifier with more than four sections (at least four `;`) is found
in neither table and fails with the invalid-format error for that specifier. -/
theorem parseNumberFormat_too_many_sections (s : String)
    (h : 4 < (strings.Split s ';').length) :
    4 ≤ s.data.count ';' ∧
    builtInFormats.lookup (strings.ToLower s) = none ∧
    commonCustomFormats.lookup s = none ∧
    parseNumberFormat s = .error (.invalidFormat s) := by
  have hcount : 4 ≤ s.data.count ';' := by
    rw [Split_length] at h
    omega
  have hbuilt : builtInFormats.lookup (strings.ToLower s) = none := by
    cases hl : builtInFormats.lookup (strings.ToLower s) with
    | none => rfl
    | some v =>
      exfalso
      have h1 := builtIn_semicolons _ (lookup_mem hl)
      have h2 := ToLower_semicolons s
      simp only at h1
      omega
  have hcust : commonCustomFormats.lookup s = none := by
    cases hl : commonCustomFormats.lookup s with
    | none => rfl
    | some v =>
      exfalso
      have h1 := custom_semicolons _ (lookup_mem hl)
      simp only at h1
      omega
  have hval : isValidExcelFormat s = false := by
    cases hv : isValidExcelFormat s with
    | false => rfl
    | true =>
      exfalso
      have := ((isValidExcelFormat_iff s).mp hv).2.1
      omega
  refine ⟨hcount, hbuilt, hcust, ?_⟩
  unfold parseNumberFormat
  simp [hbuilt, hcust, hval]

/-- Witness of C6 at the specifier `"a;b;c;d;e"`. -/
theorem parseNumberFormat_too_many_sections_witness :
    4 ≤ "a;b;c;d;e".data.count ';' ∧
    builtInFormats.lookup (strings.ToLower "a;b;c;d;e") = none ∧
    commonCustomFormats.lookup "a;b;c;d;e" = none ∧
    parseNumberFormat "a;b;c;d;e" = .error (.invalidFormat "a;b;c;d;e") :=
  parseNumberFormat_too_many_sections "a;b;c;d;e" (by decide)

/-- C7: the custom table is matched exactly. `"yyyy-mm-dd"` gives 168,
`"YYYY-MM-DD"` falls through to the validator and gives 181, and for a pattern
of the custom table with its code, a specifier other than the pattern that has
the same lower case never gets that code. -/
theorem parseNumberFormat_custom_case_sensitive (p s : String) (c : Int)
    (hp : (p, c) ∈ commonCustomFormats) (hne : s ≠ p)
    (_hfold : strings.ToLower s = strings.ToLower p) :
    parseNumberFormat "yyyy-mm-dd" = .ok 168 ∧
    parseNumberFormat "YYYY-MM-DD" = .ok 181 ∧
    isValidExcelFormat "YYYY-MM-DD" = true ∧
    parseNumberFormat s ≠ .ok c := by
  refine ⟨by decide, by decide, by decide, ?_⟩
  have hc := custom_codes_bound _ hp
  simp only at hc
  intro hres
  rcases parseNumberFormat_cases s with ⟨v, hl, h⟩ | ⟨_, v, hl, h⟩ | ⟨_, _, _, h⟩ | ⟨_, _, _, h⟩
  · rw [h] at hres
    have hv : v = c := by injection hres
    have hb := builtIn_codes_bound _ (lookup_mem hl)
    simp only at hb
    omega
  · rw [h] at hres
    have hv : v = c := by injection hres
    subst hv
    exact hne (custom_codes_inj _ (lookup_mem hl) _ hp rfl)
  · rw [h] at hres
    have hv : (181 : Int) = c := by injection hres
    omega
  · rw [h] at hres
    exact Except.noConfusion hres

/-- Witness of C7 at the pattern `"yyyy-mm-dd"` and the specifier
`"YYYY-MM-DD"`. -/
theorem parseNumberFormat_custom_case_sensitive_witness :
    parseNumberFormat "yyyy-mm-dd" = .ok 168 ∧
    parseNumberFormat "YYYY-MM-DD" = .ok 181 ∧
    isValidExcelFormat "YYYY-MM-DD" = true ∧
    parseNumberFormat "YYYY-MM-DD" ≠ .ok 168 :=
  parseNumberFormat_custom_case_sensitive "yyyy-mm-dd" "YYYY-MM-DD" 168
    (by decide) (by decide) (by decide)

/-- C8: for every name of the built-in table, the name, its upper case and its
lower case all resolve, without error, to one and the same code. -/
theorem parseNumberFormat_builtIn_case (name : String) (code : Int)
    (h : (name, code) ∈ builtInFormats) :
    ∃ c, parseNumberFormat name = .ok c ∧
      parseNumberFormat (strings.ToUpper name) = .ok c ∧
      parseNumberFormat (strings.ToLower name) = .ok c := by
  have key : ∀ e ∈ builtInFormats,
      (parseNumberFormat e.1 = .ok e.2 ∧
        parseNumberFormat (strings.ToUpper e.1) = .ok e.2 ∧
        parseNumberFormat (strings.ToLower e.1) = .ok e.2) ∨
      (parseNumberFormat e.1 = .ok 181 ∧
        parseNumberFormat (strings.ToUpper e.1) = .ok 181 ∧
        parseNumberFormat (strings.ToLower e.1) = .ok 181) := by decide
  rcases key (name, code) h with hk | hk
  · exact ⟨code, hk⟩
  · exact ⟨181, hk⟩

/-- Witness of C8 at the entry of `"h:mm am/pm"`. -/
theorem parseNumberFormat_builtIn_case_witness :
    ∃ c, parseNumberFormat "h:mm am/pm" = .ok c ∧
      parseNumberFormat (strings.ToUpper "h:mm am/pm") = .ok c ∧
      parseNumberFormat (strings.ToLower "h:mm am/pm") = .ok c :=
  parseNumberFormat_builtIn_case "h:mm am/pm" 18 (by decide)

/-- C9: the documented names resolve to the documented codes, the built-in
names advertised by the `format_range` tool resolve to the codes of the
built-in table, and the advertised example `$#,##0.00` is accepted. -/
theorem parseNumberFormat_documented :
    parseNumberFormat "general" = .ok 0 ∧
    parseNumberFormat "0" = .ok 1 ∧
    parseNumberFormat "0.00" = .ok 2 ∧
    parseNumberFormat "#,##0" = .ok 3 ∧
    parseNumberFormat "#,##0.00" = .ok 4 ∧
    parseNumberFormat "0%" = .ok 9 ∧
    parseNumberFormat "0.00%" = .ok 10 ∧
    parseNumberFormat "mm-dd-yy" = .ok 14 ∧
    parseNumberFormat "d-mmm-yy" = .ok 15 ∧
    parseNumberFormat "h:mm AM/PM" = .ok 18 ∧
    parseNumberFormat "h:mm" = .ok 20 ∧
    builtInFormats.lookup (strings.ToLower "h:mm AM/PM") = some 18 ∧
    parseNumberFormat "$#,##0.00" = .ok 181 := by
  decide

/-- C10: when `parseNumberFormat` succeeds with a code, the code lies between 0
and 163 if the lower-cased specifier is a name of the built-in table, and
between 164 and 181 if it is not. -/
theorem parseNumberFormat_code_ranges (s : String) (c : Int)
    (h : parseNumberFormat s = .ok c) :
    (strings.ToLower s ∈ builtInFormats.map Prod.fst → 0 ≤ c ∧ c ≤ 163) ∧
    (strings.ToLower s ∉ builtInFormats.map Prod.fst → 164 ≤ c ∧ c ≤ 181) := by
  constructor
  · intro hmem
    obtain ⟨v, hl, hv⟩ := lookup_of_mem_keys hmem
    have hres : parseNumberFormat s = .ok v := by
      unfold parseNumberFormat
      rw [hl]
    rw [hres] at h
    have hvc : v = c := by injection h
    subst hvc
    exact builtIn_codes_bound _ hv
  · intro hmem
    rcases parseNumberFormat_cases s with ⟨v, hl, _⟩ | ⟨_, v, hl, hr⟩ | ⟨_, _, _, hr⟩ | ⟨_, _, _, hr⟩
    · exact absurd (List.mem_map_of_mem Prod.fst (lookup_mem hl)) hmem
    · rw [hr] at h
      have hvc : v = c := by injection h
      subst hvc
      have hb := custom_codes_bound _ (lookup_mem hl)
      simp only at hb
      omega
    · rw [hr] at h
      have hvc : (181 : Int) = c := by injection h
      omega
    · rw [hr] at h
      exact Except.noConfusion h

/-- Witness of C10 at the specifier `"General"`, resolved to 0. -/
theorem parseNumberFormat_code_ranges_witness :
    (strings.ToLower "General" ∈ builtInFormats.map Prod.fst → (0 : Int) ≤ 0 ∧ (0 : Int) ≤ 163) ∧
    (strings.ToLower "General" ∉ builtInFormats.map Prod.fst →
      (164 : Int) ≤ 0 ∧ (0 : Int) ≤ 181) :=
  parseNumberFormat_code_ranges "General" 0 (by decide)

/-! ## The allow-set, the process state and the table codes -/

theorem allowSet_ascii : ∀ d ∈ allowSet, d.toNat < 128 := by decide

theorem rejectedRune_ascii (c : Char) (h : c.toNat < 128) :
    rejectedRune c = !allowSet.contains c := by
  have hc : c = Char.ofNat c.toNat := (Char.ofNat_toNat c).symm
  generalize c.toNat = n at hc h
  subst hc
  interval_cases n <;> decide

theorem rejectedRune_non_ascii (c : Char) (h : 128 ≤ c.toNat) : rejectedRune c = true := by
  have h9 : ¬ c ≤ '9' := fun hle => by
    have : c.toNat ≤ 57 := hle
    omega
  have hz : ¬ c ≤ 'z' := fun hle => by
    have : c.toNat ≤ 122 := hle
    omega
  have hZ : ¬ c ≤ 'Z' := fun hle => by
    have : c.toNat ≤ 90 := hle
    omega
  simp only [rejectedRune, h9, hz, hZ, decide_False, Bool.and_false, Bool.not_false,
    Bool.true_and, Bool.and_eq_true, bne_iff_ne, ne_eq]
  repeat' constructor
  all_goals
    intro hcd
    subst hcd
    exact absurd h (by decide)

/-- The chain of comparisons of `isValidExcelFormat` rejects a rune exactly
when the rune is no member of the explicit allow-set. -/
theorem rejectedRune_eq_not_mem (c : Char) : rejectedRune c = !allowSet.contains c := by
  by_cases h : c.toNat < 128
  · exact rejectedRune_ascii c h
  · have h1 := rejectedRune_non_ascii c (by omega)
    have h2 : allowSet.contains c = false := by
      cases hcon : allowSet.contains c with
      | false => rfl
      | true =>
        have := allowSet_ascii c (List.mem_of_elem_eq_true hcon)
        omega
    rw [h1, h2]
    rfl

theorem isValidExcelFormatCall_result (σ : Store) (format : String) :
    (isValidExcelFormatCall σ format).1 = isValidExcelFormat format := by
  unfold isValidExcelFormatCall isValidExcelFormat
  by_cases h0 : format.length = 0
  · simp [h0]
  · by_cases h4 : (strings.Split format ';').length > 4
    · simp [h0, h4]
    · simp [h0, h4]

/-- A call of `isValidExcelFormat` leaves the package-level variables and the
cells of its caller alone. -/
theorem isValidExcelFormatCall_store (σ : Store) (format : String) :
    (isValidExcelFormatCall σ format).2.globals = σ.globals ∧
    (isValidExcelFormatCall σ format).2.parseFrame = σ.parseFrame := by
  unfold isValidExcelFormatCall
  by_cases h0 : format.length = 0
  · simp [h0]
  · by_cases h4 : (strings.Split format ';').length > 4
    · simp [h0, h4]
    · simp [h0, h4]

theorem parseNumberFormatCall_result (σ : Store) (s : String) :
    (parseNumberFormatCall σ s).1 = parseNumberFormat s := by
  unfold parseNumberFormatCall parseNumberFormat
  simp only
  cases hb : builtInFormats.lookup (strings.ToLower s) with
  | some v => rfl
  | none =>
    simp only
    cases hc : commonCustomFormats.lookup s with
    | some v => rfl
    | none =>
      simp only [isValidExcelFormatCall_result, (isValidExcelFormatCall_store _ _).2]
      cases hv : isValidExcelFormat s with
      | true => simp [nextCustomCode]
      | false => simp

theorem parseNumberFormatCall_globals (σ : Store) (s : String) :
    (parseNumberFormatCall σ s).2.globals = σ.globals := by
  unfold parseNumberFormatCall
  simp only
  cases hb : builtInFormats.lookup (strings.ToLower s) with
  | some v => rfl
  | none =>
    simp only
    cases hc : commonCustomFormats.lookup s with
    | some v => rfl
    | none =>
      simp only
      split <;> simp [(isValidExcelFormatCall_store _ _).1]

theorem runCalls_globals (σ : Store) (calls : List String) :
    (runCalls σ calls).globals = σ.globals := by
  induction calls generalizing σ with
  | nil => rfl
  | cons s rest ih =>
    simp only [runCalls]
    rw [ih, parseNumberFormatCall_globals]

theorem builtIn_codes_inj :
    ∀ e ∈ builtInFormats, ∀ f ∈ builtInFormats, e.2 = f.2 → e.1 = f.1 := by
  decide

/-- The border step panics for every request whose `border_type` is a key of
`borderStyles` and whose `border_color` is absent or not a string. -/
theorem borderStep_panics (args : List (String × Value)) (borderType : String) (style : Int)
    (ht : assertString args "border_type" = some borderType)
    (hs : borderStyles.lookup borderType = some style)
    (hc : assertString args "border_color" = none) :
    borderStep args initialBorder =
      .panicked "interface conversion: not string" := by
  have hne : borderType ≠ "" := by
    intro h
    subst h
    have hnone : borderStyles.lookup "" = none := by decide
    rw [hnone] at hs
    exact Option.noConfusion hs
  simp [borderStep, ht, hne, hs, initialBorder, List.replicate, borderLoop, hc]

/-! ## The claims on the handler, on state and on the tables -/

/-- C11: the tool description calls every parameter but `filepath`,
`sheet_name` and `start_cell` optional, yet the border step reads
`border_color` with a one-value type assertion. With `border_type` the key
`thin` of `borderStyles` the step panics when `border_color` is absent and
when it is a number, and only runs to its end, setting all four borders, when
`border_color` is a string. -/
theorem borderStep_border_color_required :
    borderStyles.lookup "thin" = some 1 ∧
    borderStep
      [("filepath", .str "book.xlsx"), ("sheet_name", .str "Sheet1"),
        ("start_cell", .str "A1"), ("border_type", .str "thin")]
      initialBorder = .panicked "interface conversion: not string" ∧
    borderStep
      [("filepath", .str "book.xlsx"), ("sheet_name", .str "Sheet1"),
        ("start_cell", .str "A1"), ("border_type", .str "thin"),
        ("border_color", .num 0)]
      initialBorder = .panicked "interface conversion: not string" ∧
    borderStep
      [("filepath", .str "book.xlsx"), ("sheet_name", .str "Sheet1"),
        ("start_cell", .str "A1"), ("border_type", .str "thin"),
        ("border_color", .str "")]
      initialBorder =
        .done [⟨"top", "", 1⟩, ⟨"right", "", 1⟩, ⟨"bottom", "", 1⟩, ⟨"left", "", 1⟩] := by
  decide

/-- C12: `parseNumberFormat` is deterministic and stateless. From any store,
after any calls, a call with a specifier gives the same result as a call with
that specifier after any other calls from any other store, and as a second
call with it later in the same run, whatever calls lie between; that result is
the one of `parseNumberFormat`, a code or the invalid-format error for that
very specifier; and no run of calls changes a package-level variable. -/
theorem parseNumberFormatCall_stateless (σ σ₁ : Store)
    (before before₁ between : List String) (s : String) :
    (parseNumberFormatCall (runCalls σ before) s).1 =
      (parseNumberFormatCall (runCalls σ₁ before₁) s).1 ∧
    (parseNumberFormatCall (runCalls σ before) s).1 =
      (parseNumberFormatCall
        (runCalls (parseNumberFormatCall (runCalls σ before) s).2 between) s).1 ∧
    (parseNumberFormatCall (runCalls σ before) s).1 = parseNumberFormat s ∧
    (runCalls σ (before ++ s :: between ++ [s])).globals = σ.globals ∧
    ((∃ c, (parseNumberFormatCall (runCalls σ before) s).1 = .ok c) ∨
      (parseNumberFormatCall (runCalls σ before) s).1 = .error (.invalidFormat s)) := by
  refine ⟨?_, ?_, parseNumberFormatCall_result _ s, runCalls_globals σ _, ?_⟩
  · rw [parseNumberFormatCall_result, parseNumberFormatCall_result]
  · rw [parseNumberFormatCall_result, parseNumberFormatCall_result]
  · rw [parseNumberFormatCall_result]
    rcases parseNumberFormat_cases s with ⟨v, _, h⟩ | ⟨_, v, _, h⟩ | ⟨_, _, _, h⟩ | ⟨_, _, _, h⟩
    · exact Or.inl ⟨v, h⟩
    · exact Or.inl ⟨v, h⟩
    · exact Or.inl ⟨181, h⟩
    · exact Or.inr h

/-- C13: `isValidExcelFormat` is the set-membership validator. It is true
exactly when the string is not empty, splitting it on `;` gives at most four
sections, and every rune of every section is a member of the explicit
allow-set; the comparisons against `y`, `m`, `d`, `h`, `s`, `e` add nothing
to the letters `a`-`z`. -/
theorem isValidExcelFormat_eq_setMembership (s : String) :
    isValidExcelFormat s = setMembershipValidator s ∧
    (isValidExcelFormat s = true ↔
      s ≠ "" ∧ (strings.Split s ';').length ≤ 4 ∧
        ∀ sec ∈ strings.Split s ';', ∀ ch ∈ sec.data, ch ∈ allowSet) := by
  have hfun : (fun ch => !rejectedRune ch) = (fun ch => allowSet.contains ch) := by
    funext ch
    rw [rejectedRune_eq_not_mem, Bool.not_not]
  have hlen : s.length = 0 ↔ s = "" := by
    constructor
    · intro h
      exact String.ext (List.length_eq_zero.mp h)
    · rintro rfl
      rfl
  have heq : isValidExcelFormat s = setMembershipValidator s := by
    unfold isValidExcelFormat setMembershipValidator
    rw [hfun]
    by_cases h0 : s.length = 0
    · simp [h0, hlen.mp h0]
    · have hne : s ≠ "" := fun h => h0 (hlen.mpr h)
      by_cases h4 : (strings.Split s ';').length > 4
      · have h4n : ¬ (strings.Split s ';').length ≤ 4 := by omega
        simp [h0, hne, h4, h4n]
      · have h4n : (strings.Split s ';').length ≤ 4 := by omega
        simp [h0, hne, h4, h4n]
  refine ⟨heq, ?_⟩
  rw [heq]
  simp [setMembershipValidator, List.all_eq_true, and_assoc]

/-- C14: recognised formats never collide. Two specifiers that resolve to the
same code other than 181 have the same lower case, and are the same string
when the code is 164 or more; the codes of the built-in table are pairwise
distinct, so are those of the custom table, and the tables share no code. -/
theorem parseNumberFormat_no_collision (a b : String) (c : Int)
    (ha : parseNumberFormat a = .ok c) (hb : parseNumberFormat b = .ok c)
    (hc : c ≠ 181) :
    strings.ToLower a = strings.ToLower b ∧ (164 ≤ c → a = b) ∧
    (builtInFormats.map Prod.snd).Nodup ∧ (commonCustomFormats.map Prod.snd).Nodup ∧
    ∀ e ∈ builtInFormats, ∀ f ∈ commonCustomFormats, e.2 ≠ f.2 := by
  have hway : ∀ x : String, parseNumberFormat x = .ok c →
      ((strings.ToLower x, c) ∈ builtInFormats ∧ c ≤ 163) ∨
      ((x, c) ∈ commonCustomFormats ∧ 164 ≤ c) := by
    intro x hx
    rcases parseNumberFormat_cases x with ⟨v, hl, h⟩ | ⟨_, v, hl, h⟩ | ⟨_, _, _, h⟩ | ⟨_, _, _, h⟩
    · rw [h] at hx
      have hv : v = c := by injection hx
      subst hv
      exact Or.inl ⟨lookup_mem hl, (builtIn_codes_bound _ (lookup_mem hl)).2⟩
    · rw [h] at hx
      have hv : v = c := by injection hx
      subst hv
      exact Or.inr ⟨lookup_mem hl, (custom_codes_bound _ (lookup_mem hl)).1⟩
    · rw [h] at hx
      have hv : (181 : Int) = c := by injection hx
      exact absurd hv.symm hc
    · rw [h] at hx
      exact Except.noConfusion hx
  refine ⟨?_, ?_, by decide, by decide, by decide⟩
  · rcases hway a ha with ⟨ma, la⟩ | ⟨ma, la⟩ <;> rcases hway b hb with ⟨mb, lb⟩ | ⟨mb, lb⟩
    · exact builtIn_codes_inj _ ma _ mb rfl
    · omega
    · omega
    · have hab : a = b := custom_codes_inj _ ma _ mb rfl
      rw [hab]
  · intro h164
    rcases hway a ha with ⟨_, la⟩ | ⟨ma, _⟩ <;> rcases hway b hb with ⟨_, lb⟩ | ⟨mb, _⟩
    · omega
    · omega
    · omega
    · exact custom_codes_inj _ ma _ mb rfl

/-- Witness of C14 at the specifiers `"General"` and `"GENERAL"`, both
resolved to 0. -/
theorem parseNumberFormat_no_collision_witness :
    strings.ToLower "General" = strings.ToLower "GENERAL" ∧
    ((164 : Int) ≤ 0 → "General" = "GENERAL") ∧
    (builtInFormats.map Prod.snd).Nodup ∧ (commonCustomFormats.map Prod.snd).Nodup ∧
    ∀ e ∈ builtInFormats, ∀ f ∈ commonCustomFormats, e.2 ≠ f.2 :=
  parseNumberFormat_no_collision "General" "GENERAL" 0 (by decide) (by decide) (by decide)

end ExcelMcp
